import Mathlib

/-!
Verification of the tolerant ingestion / normalization routine and the
downstream filter and tab-rendering logic of the Retail Sales Visualizer
(`src/app.py`), as a shallow embedding in Lean.

Modelling conventions:
* A parsed CSV (the result of a successful `pd.read_csv` call) is a
  `RawCSV`: a header row and data rows of string cells; an empty cell is
  the missing value (pandas NaN).  `read_csv` output is rectangular, which
  `RawCSV.WF` records.
* The three `pd.read_csv(..., encoding=e)` attempts for
  `[utf-8, latin1, windows-1252]` are modelled by three
  `Option RawCSV` fields of `Input` (in that order): `none` means the read
  raised, `some csv` means it produced that parsed frame.
* Exceptions inside the per-encoding `try` body are `Except.error ()`:
  the `except: continue` of the encoding loop consumes them.
* `pd.to_datetime(col, format=fmt)` succeeds iff every non-missing value
  of the column matches `fmt` (missing values pass through as NaT); the
  `errors=coerce` fallback is per-value best-effort, modelled as trying
  the same explicit formats value by value (the exact dateutil heuristic
  is not modellable; the claims only need that it is per-value and
  null-on-failure, per spec section 4.1 step 4).
* `pd.to_numeric(col, errors=coerce)` is per-value decimal parsing,
  null on failure.
* Accessing `df[c]` when no column is named `c` raises (KeyError), and
  `pd.to_datetime` / `pd.to_numeric` on `df[c]` when several columns are
  named `c` raise (the selection is 2-dimensional); both are modelled by
  the column-count guards in `dateStep` / `coerceNumCol`.
-/

/-- A calendar date as parsed from a CSV cell. -/
structure Date where
  year : Nat
  month : Nat
  day : Nat
deriving Repr, DecidableEq

/-- A cell of the normalized dataset: raw string, parsed date, parsed
numeric value, or missing (NaN/NaT/None). -/
inductive Value where
  | str (s : String)
  | date (d : Date)
  | num (q : Rat)
  | null
deriving Repr, DecidableEq

/-- The parsed frame a successful `pd.read_csv` call yields: header and
data rows of raw string cells. -/
structure RawCSV where
  header : List String
  rows : List (List String)
deriving Repr, DecidableEq

/-- `read_csv` output is rectangular: every data row has one cell per
header entry (pandas NaN-fills short rows and rejects long ones). -/
def RawCSV.WF (csv : RawCSV) : Bool :=
  csv.rows.all (fun r => r.length == csv.header.length)

/-- The normalized dataset: named columns and rows of cells. -/
structure DataFrame where
  cols : List String
  rows : List (List Value)
deriving Repr, DecidableEq

/-- The three read attempts of the encoding loop (line 25-28 of app.py),
in the order of the code, `[utf-8, latin1, windows-1252]`, plus the
`os.path.exists` outcome. -/
structure Input where
  fileExists : Bool
  parse_utf8 : Option RawCSV
  parse_latin1 : Option RawCSV
  parse_win1252 : Option RawCSV
deriving Repr, DecidableEq

/-- Index of the first column with a given name (`df[c]` selects this one
when the name is unique). -/
def colIdx? : List String → String → Option Nat
  | [], _ => none
  | a :: l, c => if a = c then some 0 else (colIdx? l c).map (· + 1)

/-- How many columns bear a given name. -/
def countCol : List String → String → Nat
  | [], _ => 0
  | a :: l, c => (if a = c then 1 else 0) + countCol l c

/-- Value of the (first) column named `c` in a row laid out by `cols`. -/
def valAt (cols : List String) (c : String) (r : List Value) : Value :=
  match colIdx? cols c with
  | some i => r.getD i Value.null
  | none => Value.null

/-- The column `df[c]` as a list of cell values (first occurrence of the
name; the pipeline only reads columns it has checked to be unique). -/
def getCol (df : DataFrame) (c : String) : List Value :=
  match colIdx? df.cols c with
  | some i => df.rows.map (fun r => r.getD i Value.null)
  | none => []

/-- One row after the assignment `df[c] = series`: every position whose
column is named `c` receives the new value for that row. -/
def replaceRow (cols : List String) (c : String) (r : List Value) (v : Value) : List Value :=
  (cols.zip r).map (fun p => if p.1 = c then v else p.2)

/-- The assignment `df[c] = series`: replaces the column in place when the
name exists, appends a new column otherwise (pandas semantics). -/
def setCol (df : DataFrame) (c : String) (vs : List Value) : DataFrame :=
  if (colIdx? df.cols c).isSome then
    { cols := df.cols, rows := (df.rows.zip vs).map (fun p => replaceRow df.cols c p.1 p.2) }
  else
    { cols := df.cols ++ [c], rows := (df.rows.zip vs).map (fun p => p.1 ++ [p.2]) }

/-- Rows are aligned with the header. -/
def DataFrame.WF (df : DataFrame) : Bool :=
  df.rows.all (fun r => r.length == df.cols.length)

/-- Lower-casing, character by character (ASCII case mapping; header
names in this dataset are ASCII). -/
def toLowerStr (s : String) : String :=
  String.mk (s.data.map Char.toLower)

/-- Strip leading and trailing whitespace, as `str.strip()` does. -/
def trimStr (s : String) : String :=
  String.mk (((s.data.dropWhile Char.isWhitespace).reverse.dropWhile
    Char.isWhitespace).reverse)

/-- Split a character list at every occurrence of a separator. -/
def splitCharAux (c : Char) : List Char → List (List Char)
  | [] => [[]]
  | a :: rest =>
      match splitCharAux c rest with
      | [] => [[]]
      | g :: gs => if a = c then [] :: g :: gs else (a :: g) :: gs

/-- Split a string on a one-character separator (the behaviour of
`split` for the separators `/`, `-`, `.` used here). -/
def splitOnChar (c : Char) (s : String) : List String :=
  (splitCharAux c s.data).map String.mk

/-- Accumulate the value of a digit list. -/
def digitsVal : List Char → Nat → Nat
  | [], acc => acc
  | c :: rest, acc => digitsVal rest (acc * 10 + (c.toNat - 48))

/-- Parse a nonempty all-digit string as a natural number. -/
def decNat? (s : String) : Option Nat :=
  if s.data ≠ [] ∧ s.data.all Char.isDigit then some (digitsVal s.data 0)
  else none

/-- The literal rename table of app.py lines 32-38 (only
`order date → order_date` changes a name). -/
def renameTable : List (String × String) :=
  [("profit", "profit"), ("discount", "discount"), ("order date", "order_date"),
   ("sales", "sales"), ("region", "region")]

/-- `df.rename(columns=renameTable)`: map a name through the table,
keep it unchanged when absent. -/
def applyRename (s : String) : String :=
  ((renameTable.find? (fun p => p.1 == s)).map Prod.snd).getD s

/-- `df.columns.str.strip().str.lower()` followed by the rename
(app.py lines 31-38). -/
def normalizeHeader (s : String) : String :=
  applyRename (toLowerStr (trimStr s))

/-- A raw cell as loaded: empty cell is missing (NaN), anything else a
string value. -/
def cellToValue (s : String) : Value :=
  if s = "" then Value.null else Value.str s

/-- The frame right after reading and column normalization
(app.py lines 28-38). -/
def normalizeColumns (csv : RawCSV) : DataFrame :=
  { cols := csv.header.map normalizeHeader,
    rows := csv.rows.map (fun r => r.map cellToValue) }

/-- Is the year a leap year (Gregorian rule). -/
def isLeap (y : Nat) : Bool :=
  (y % 4 == 0 && y % 100 != 0) || y % 400 == 0

/-- Days in a month. -/
def daysInMonth (y m : Nat) : Nat :=
  if m = 2 then (if isLeap y then 29 else 28)
  else if m = 4 ∨ m = 6 ∨ m = 9 ∨ m = 11 then 30
  else 31

/-- Calendar validity, as `to_datetime` enforces for an explicit format. -/
def validDate (y m d : Nat) : Bool :=
  1 ≤ m && m ≤ 12 && 1 ≤ d && d ≤ daysInMonth y m

/-- Strict parse of one cell under format `%d/%m/%Y`. -/
def parseDMY (s : String) : Option Date :=
  match splitOnChar '/' s with
  | [d, m, y] =>
      match decNat? d, decNat? m, decNat? y with
      | some dn, some mn, some yn =>
          if y.length = 4 ∧ validDate yn mn dn then some ⟨yn, mn, dn⟩ else none
      | _, _, _ => none
  | _ => none

/-- Strict parse of one cell under format `%m/%d/%Y`. -/
def parseMDY (s : String) : Option Date :=
  match splitOnChar '/' s with
  | [m, d, y] =>
      match decNat? d, decNat? m, decNat? y with
      | some dn, some mn, some yn =>
          if y.length = 4 ∧ validDate yn mn dn then some ⟨yn, mn, dn⟩ else none
      | _, _, _ => none
  | _ => none

/-- Strict parse of one cell under format `%Y-%m-%d`. -/
def parseISO (s : String) : Option Date :=
  match splitOnChar '-' s with
  | [y, m, d] =>
      match decNat? d, decNat? m, decNat? y with
      | some dn, some mn, some yn =>
          if y.length = 4 ∧ validDate yn mn dn then some ⟨yn, mn, dn⟩ else none
      | _, _, _ => none
  | _ => none

/-- The explicit format list of app.py line 41, in source order:
`%d/%m/%Y`, `%m/%d/%Y`, `%Y-%m-%d`. -/
def dateFormats : List (String → Option Date) :=
  [parseDMY, parseMDY, parseISO]

/-- One cell under `pd.to_datetime(-, format=fmt)`: a missing cell passes
through as NaT, a string must match the format, anything else fails. -/
def parseCell (p : String → Option Date) (v : Value) : Option Value :=
  match v with
  | Value.null => some Value.null
  | Value.str s => (p s).map Value.date
  | _ => none

/-- `pd.to_datetime(col, format=fmt)`: succeeds iff every cell parses
(missing cells pass through as NaT); returns the whole parsed column or
fails. -/
def parseColWith (p : String → Option Date) : List Value → Option (List Value)
  | [] => some []
  | v :: rest =>
      match parseCell p v with
      | none => none
      | some w => (parseColWith p rest).map (w :: ·)

/-- Per-value best-effort date parse modelling the
`pd.to_datetime(col, errors=coerce)` fallback of app.py line 49:
unparseable cells become missing instead of failing the column. -/
def coerceDate (v : Value) : Value :=
  match v with
  | Value.str s =>
      match parseDMY s <|> parseMDY s <|> parseISO s with
      | some d => Value.date d
      | none => Value.null
  | _ => Value.null

/-- First success of an ordered list of attempts. -/
def firstSome {α : Type} : List (Option α) → Option α
  | [] => none
  | o :: rest =>
      match o with
      | some a => some a
      | none => firstSome rest

/-- app.py lines 41-49: try each explicit format against the whole
`order_date` column, first full success wins; otherwise the per-value
coerce fallback.  When the frame has no (or several) columns named
`order_date`, the access raises and the exception escapes to the
encoding loop. -/
def dateStep (df : DataFrame) : Except Unit DataFrame :=
  if countCol df.cols "order_date" ≠ 1 then Except.error ()
  else
    match firstSome (dateFormats.map (fun p => parseColWith p (getCol df "order_date"))) with
    | some parsed => Except.ok (setCol df "order_date" parsed)
    | none => Except.ok (setCol df "order_date" ((getCol df "order_date").map coerceDate))

/-- Abbreviated month names, as `%b` renders them. -/
def monthAbbrev : Nat → String
  | 1 => "Jan" | 2 => "Feb" | 3 => "Mar" | 4 => "Apr"
  | 5 => "May" | 6 => "Jun" | 7 => "Jul" | 8 => "Aug"
  | 9 => "Sep" | 10 => "Oct" | 11 => "Nov" | 12 => "Dec"
  | _ => ""

/-- A year zero-padded to four digits, as `%Y` renders it. -/
def pad4 (n : Nat) : String :=
  let s := toString n
  String.mk (List.replicate (4 - s.length) '0') ++ s

/-- The strftime format `%b-%Y` applied to one date. -/
def monthYearLabel (d : Date) : String :=
  monthAbbrev d.month ++ "-" ++ pad4 d.year

/-- The `month_year` label of one `order_date` cell: derived for a date,
missing for NaT. -/
def deriveMonthYear (v : Value) : Value :=
  match v with
  | Value.date d => Value.str (monthYearLabel d)
  | _ => Value.null

/-- app.py line 52: `df['month_year'] = df['order_date'].dt.strftime('%b-%Y')`. -/
def monthYearStep (df : DataFrame) : DataFrame :=
  setCol df "month_year" ((getCol df "order_date").map deriveMonthYear)

/-- `pd.to_numeric(cell, errors=coerce)` on one cell: optional sign,
decimal digits, optional fractional part; anything else is missing. -/
def parseNum? (s : String) : Option Rat :=
  let t := trimStr s
  let neg : Bool :=
    match t.data with
    | c :: _ => c = '-'
    | [] => false
  let u := if neg then String.mk t.data.tail else t
  let signed : Nat → Nat → Rat := fun n d =>
    if neg then mkRat (-(n : Int)) d else mkRat n d
  match splitOnChar '.' u with
  | [i] => (decNat? i).map (fun n => signed n 1)
  | [i, f] =>
      match decNat? i, decNat? f with
      | some n, some m => some (signed (n * 10 ^ f.length + m) (10 ^ f.length))
      | _, _ => none
  | _ => none

/-- Numeric coercion of one cell, null on failure. -/
def coerceNum (v : Value) : Value :=
  match v with
  | Value.str s =>
      match parseNum? s with
      | some q => Value.num q
      | none => Value.null
  | Value.num q => Value.num q
  | _ => Value.null

/-- One iteration of the numeric loop (app.py lines 56-58): skip an absent
column, coerce a unique one; `pd.to_numeric` on a duplicated name raises
(2-dimensional selection) and the exception escapes to the encoding loop. -/
def coerceNumCol (df : DataFrame) (c : String) : Except Unit DataFrame :=
  if countCol df.cols c ≥ 2 then Except.error ()
  else if countCol df.cols c = 1 then
    Except.ok (setCol df c ((getCol df c).map coerceNum))
  else Except.ok df

/-- The numeric columns of app.py line 55, in source order. -/
def numCols : List String := ["profit", "discount", "sales"]

/-- app.py lines 55-58: coerce each of `profit`, `discount`, `sales`. -/
def numericStep (df : DataFrame) : Except Unit DataFrame := do
  let d1 ← coerceNumCol df "profit"
  let d2 ← coerceNumCol d1 "discount"
  coerceNumCol d2 "sales"

/-- The body of one encoding attempt after a successful read
(app.py lines 30-60): column normalization, date parsing, derived label,
numeric coercion.  `Except.error ()` is an exception consumed by the
`except: continue` of the encoding loop (line 62). -/
def processEncoding (csv : RawCSV) : Except Unit DataFrame := do
  let df := normalizeColumns csv
  let df ← dateStep df
  let df := monthYearStep df
  numericStep df

/-- The outcome of `load_data`: a normalized dataset, or one of the two
terminal failures (both return `None` after an `st.error` message). -/
inductive LoadResult where
  | ok (df : DataFrame)
  | resourceNotFound
  | unreadableEncoding
deriving Repr, DecidableEq

/-- The read attempts in the order the encoding loop tries them. -/
def attempts (inp : Input) : List (Option RawCSV) :=
  [inp.parse_utf8, inp.parse_latin1, inp.parse_win1252]

/-- The encoding loop of app.py lines 26-63: a failed read
(`pd.read_csv` raised) or a failed body both `continue` to the next
candidate; the first attempt whose body completes returns its frame. -/
def firstOk : List (Option RawCSV) → Option DataFrame
  | [] => none
  | none :: rest => firstOk rest
  | some csv :: rest =>
      match processEncoding csv with
      | Except.ok df => some df
      | Except.error _ => firstOk rest

/-- app.py lines 16-70: existence check, then the encoding loop; all
attempts exhausted is the `UnreadableEncoding` terminal failure. -/
def load_data (inp : Input) : LoadResult :=
  if inp.fileExists = false then LoadResult.resourceNotFound
  else
    match firstOk (attempts inp) with
    | some df => LoadResult.ok df
    | none => LoadResult.unreadableEncoding

/-- A single-quote character, used in the literal error text. -/
def squote : String := String.singleton (Char.ofNat 39)

/-- The literal message of app.py line 21. -/
def resourceNotFoundMsg : String :=
  "Error: File " ++ squote ++ "data/superstore.csv" ++ squote ++ " not found"

/-- The literal message of app.py line 65. -/
def unreadableEncodingMsg : String :=
  "Failed to load data with all encoding attempts"

/-- The `st.error` calls `load_data` makes on each outcome. -/
def errorMessages : LoadResult → List String
  | LoadResult.ok _ => []
  | LoadResult.resourceNotFound => [resourceNotFoundMsg]
  | LoadResult.unreadableEncoding => [unreadableEncodingMsg]

/-- app.py lines 73-76: on a `None` result `st.stop()` halts the session
before any chart code runs; charts are reached only on a dataset. -/
def rendersCharts : LoadResult → Bool
  | LoadResult.ok _ => true
  | _ => false

/-- app.py line 92: keep the rows whose `region` is in the selected set
(`isin`: a missing region is never a member); pass the frame through
unchanged when it has no `region` column. -/
def filtered_df (df : DataFrame) (selected_region : List String) : DataFrame :=
  if (colIdx? df.cols "region").isSome then
    { cols := df.cols,
      rows := df.rows.filter (fun r =>
        match valAt df.cols "region" r with
        | Value.str s => selected_region.contains s
        | _ => false) }
  else df

/-- What a visualization tab shows: a chart, or a degraded warning. -/
inductive TabOutput where
  | chart
  | warning (msg : String)
deriving Repr, DecidableEq

/-- app.py lines 97-106: the sales-trend tab. -/
def tab1 (df : DataFrame) : TabOutput :=
  if (colIdx? df.cols "month_year").isSome ∧ (colIdx? df.cols "sales").isSome then
    TabOutput.chart
  else TabOutput.warning "Required columns for sales trend not available"

/-- app.py lines 108-116: the regional-analysis tab. -/
def tab2 (df : DataFrame) : TabOutput :=
  if (colIdx? df.cols "region").isSome ∧ (colIdx? df.cols "sales").isSome then
    TabOutput.chart
  else TabOutput.warning "Required columns for regional analysis not available"

/-- app.py lines 118-131: the correlation tab; the warning names the
missing columns in source order. -/
def tab3 (df : DataFrame) : TabOutput :=
  if (colIdx? df.cols "profit").isSome ∧ (colIdx? df.cols "discount").isSome then
    TabOutput.chart
  else
    let missing :=
      (if (colIdx? df.cols "profit").isSome then [] else ["profit"]) ++
      (if (colIdx? df.cols "discount").isSome then [] else ["discount"])
    TabOutput.warning ("Missing columns for correlation analysis: " ++ String.intercalate ", " missing)

/-- One cell under a strict format, given that the whole column parses:
missing stays missing, a string becomes its parsed date. -/
def pwDate (p : String → Option Date) (v : Value) : Value :=
  match v with
  | Value.str s =>
      match p s with
      | some d => Value.date d
      | none => Value.null
  | _ => Value.null

/-- After date parsing an `order_date` cell is a date or missing. -/
def dateOrNull : Value → Bool
  | Value.date _ => true
  | Value.null => true
  | _ => false

/-! ### Concrete instances used in scenario theorems -/

/-- The spec scenario file: header `Order Date`, one date `31/12/2023`. -/
def csvScenario : RawCSV := ⟨["Order Date"], [["31/12/2023"]]⟩

/-- A CSV that reads fine under every encoding but has no column that
normalizes to `order_date`. -/
def csvNoDate : RawCSV := ⟨["Sales", "Region"], [["10", "East"]]⟩

/-- An existing file whose every decode yields `csvNoDate`. -/
def inpNoDate : Input := ⟨true, some csvNoDate, some csvNoDate, some csvNoDate⟩

/-- Two distinct source headers (`Region`, `region `) normalizing to the
same canonical name. -/
def csvDupRegion : RawCSV :=
  ⟨["Order Date", "Region", "region ", "Sales"], [["31/12/2023", "East", "E2", "10"]]⟩

/-- A complete well-formed source file. -/
def csvGood : RawCSV :=
  ⟨["Order Date", "Sales", "Profit", "Discount", "Region"],
   [["31/12/2023", "100", "20", "0.1", "East"],
    ["01/01/2023", "abc", "5", "x", "West"],
    ["notadate", "50", "1", "0", "Central"]]⟩

/-- An existing file decoding to `csvGood` under utf-8. -/
def inpGood : Input := ⟨true, some csvGood, none, none⟩

/-- A source file with no `discount` column. -/
def csvNoDiscount : RawCSV :=
  ⟨["Order Date", "Sales", "Profit", "Region"], [["31/12/2023", "100", "20", "East"]]⟩

/-- A normalized frame with regions East, West and Central. -/
def dfRegions : DataFrame :=
  ⟨["region", "sales"],
   [[Value.str "East", Value.num 1], [Value.str "West", Value.num 2],
    [Value.str "Central", Value.num 3]]⟩

/-- The absent-file input. -/
def inpMissing : Input := ⟨false, none, none, none⟩

/-- The normalized dataset `load_data` produces from `inpGood`. -/
def dfGood : DataFrame :=
  ⟨["order_date", "sales", "profit", "discount", "region", "month_year"],
   [[Value.date ⟨2023, 12, 31⟩, Value.num (mkRat 100 1), Value.num (mkRat 20 1),
     Value.num (mkRat 1 10), Value.str "East", Value.str "Dec-2023"],
    [Value.date ⟨2023, 1, 1⟩, Value.null, Value.num (mkRat 5 1),
     Value.null, Value.str "West", Value.str "Jan-2023"],
    [Value.null, Value.num (mkRat 50 1), Value.num (mkRat 1 1),
     Value.num (mkRat 0 1), Value.str "Central", Value.null]]⟩

/-- The normalized dataset ingestion produces from `csvNoDiscount`. -/
def dfNoDiscount : DataFrame :=
  ⟨["order_date", "sales", "profit", "region", "month_year"],
   [[Value.date ⟨2023, 12, 31⟩, Value.num (mkRat 100 1), Value.num (mkRat 20 1),
     Value.str "East", Value.str "Dec-2023"]]⟩

/-! ### Basic lemmas about column lookup and row update -/

theorem colIdx?_eq_none_iff (l : List String) (c : String) :
    colIdx? l c = none ↔ countCol l c = 0 := by
  induction l with
  | nil => simp [colIdx?, countCol]
  | cons a t ih =>
      by_cases h : a = c <;> simp [colIdx?, countCol, h, ih]

theorem colIdx?_isSome_iff (l : List String) (c : String) :
    (colIdx? l c).isSome = true ↔ countCol l c ≠ 0 := by
  rw [Option.isSome_iff_ne_none]
  exact not_congr (colIdx?_eq_none_iff l c)

theorem colIdx?_lt_length (l : List String) (c : String) (i : Nat)
    (h : colIdx? l c = some i) : i < l.length := by
  induction l generalizing i with
  | nil => simp [colIdx?] at h
  | cons a t ih =>
      simp only [List.length_cons]
      by_cases ha : a = c
      · simp [colIdx?, ha] at h
        omega
      · simp only [colIdx?, ha, if_false] at h
        cases hj : colIdx? t c with
        | none => rw [hj] at h; simp at h
        | some j =>
            rw [hj] at h
            simp at h
            have := ih j hj
            omega

theorem countCol_append (l l' : List String) (c : String) :
    countCol (l ++ l') c = countCol l c + countCol l' c := by
  induction l with
  | nil => simp [countCol]
  | cons a t ih => simp [countCol, ih]; omega

theorem colIdx?_append_left (l l' : List String) (c : String) (i : Nat)
    (h : colIdx? l c = some i) : colIdx? (l ++ l') c = some i := by
  induction l generalizing i with
  | nil => simp [colIdx?] at h
  | cons a t ih =>
      by_cases ha : a = c
      · simp [colIdx?, ha] at h ⊢
        exact h
      · simp only [colIdx?, ha, if_false] at h
        cases hj : colIdx? t c with
        | none => rw [hj] at h; simp at h
        | some j =>
            rw [hj] at h
            simp at h
            simp [colIdx?, ha, ih j hj]
            omega

theorem colIdx?_append_self (l : List String) (c : String)
    (h : colIdx? l c = none) : colIdx? (l ++ [c]) c = some l.length := by
  induction l with
  | nil => simp [colIdx?]
  | cons a t ih =>
      by_cases ha : a = c
      · simp [colIdx?, ha] at h
      · have h' : colIdx? t c = none := by
          simp [colIdx?, ha] at h
          exact h
        simp [colIdx?, ha, ih h']

theorem zip_map_self {α β γ : Type} (l : List α) (g : α → β) (F : α → β → γ) :
    ((l.zip (l.map g)).map fun p => F p.1 p.2) = l.map (fun x => F x (g x)) := by
  induction l with
  | nil => rfl
  | cons a t ih => simp [ih]

theorem replaceRow_cons (a : String) (t : List String) (c : String)
    (x : Value) (xs : List Value) (v : Value) :
    replaceRow (a :: t) c (x :: xs) v =
      (if a = c then v else x) :: replaceRow t c xs v := by
  simp [replaceRow]

theorem replaceRow_length (cols : List String) (c : String) (r : List Value) (v : Value) :
    (replaceRow cols c r v).length = min cols.length r.length := by
  simp [replaceRow]

theorem valAt_replaceRow_ne (cols : List String) (c c' : String) (r : List Value) (v : Value)
    (hne : c' ≠ c) (hlen : r.length = cols.length) :
    valAt cols c' (replaceRow cols c r v) = valAt cols c' r := by
  induction cols generalizing r with
  | nil =>
      cases r with
      | nil => simp [valAt, colIdx?]
      | cons x xs => simp at hlen
  | cons a t ih =>
      cases r with
      | nil => simp at hlen
      | cons x xs =>
          simp only [List.length_cons] at hlen
          rw [replaceRow_cons]
          by_cases ha : a = c'
          · subst ha
            have hac : a ≠ c := hne
            simp [valAt, colIdx?, hac]
          · cases hidx : colIdx? t c' with
            | none => simp [valAt, colIdx?, ha, hidx]
            | some j =>
                have ht := ih xs (by omega)
                simp only [valAt, hidx] at ht
                simp only [valAt, colIdx?, ha, if_false, hidx, Option.map_some,
                  List.getD_cons_succ]
                exact ht

theorem valAt_replaceRow_eq (cols : List String) (c : String) (r : List Value) (v : Value)
    (hmem : (colIdx? cols c).isSome = true) (hlen : r.length = cols.length) :
    valAt cols c (replaceRow cols c r v) = v := by
  induction cols generalizing r with
  | nil => simp [colIdx?] at hmem
  | cons a t ih =>
      cases r with
      | nil => simp at hlen
      | cons x xs =>
          simp only [List.length_cons] at hlen
          rw [replaceRow_cons]
          by_cases ha : a = c
          · subst ha
            simp [valAt, colIdx?]
          · have hmem' : (colIdx? t c).isSome = true := by
              simpa [colIdx?, ha] using hmem
            cases hidx : colIdx? t c with
            | none => rw [hidx] at hmem'; simp at hmem'
            | some j =>
                have ht := ih xs hmem' (by omega)
                simp only [valAt, hidx] at ht
                simp only [valAt, colIdx?, ha, if_false, hidx, Option.map_some,
                  List.getD_cons_succ]
                exact ht

/-! ### Lemmas about appended columns and column extraction -/

theorem valAt_append_old (cols : List String) (c c' : String) (r : List Value)
    (v : Value) (i : Nat) (hidx : colIdx? cols c' = some i)
    (hlen : r.length = cols.length) :
    valAt (cols ++ [c]) c' (r ++ [v]) = valAt cols c' r := by
  have hi := colIdx?_lt_length cols c' i hidx
  have h2 := colIdx?_append_left cols [c] c' i hidx
  simp only [valAt, hidx, h2]
  rw [List.getD_append]
  omega

theorem valAt_append_new (cols : List String) (c : String) (r : List Value)
    (v : Value) (hnone : colIdx? cols c = none) (hlen : r.length = cols.length) :
    valAt (cols ++ [c]) c (r ++ [v]) = v := by
  have h2 := colIdx?_append_self cols c hnone
  simp only [valAt, h2]
  rw [← hlen]
  simp

theorem getCol_eq_map (df : DataFrame) (c : String) (i : Nat)
    (hidx : colIdx? df.cols c = some i) :
    getCol df c = df.rows.map (fun r => valAt df.cols c r) := by
  simp only [getCol, hidx, valAt]

theorem setCol_map_present (df : DataFrame) (c : String) (g : List Value → Value)
    (hmem : (colIdx? df.cols c).isSome = true) :
    setCol df c (df.rows.map g) =
      ⟨df.cols, df.rows.map (fun r => replaceRow df.cols c r (g r))⟩ := by
  simp only [setCol, hmem, if_true]
  congr 1
  exact zip_map_self df.rows g (fun r v => replaceRow df.cols c r v)

theorem setCol_map_absent (df : DataFrame) (c : String) (g : List Value → Value)
    (hnone : colIdx? df.cols c = none) :
    setCol df c (df.rows.map g) =
      ⟨df.cols ++ [c], df.rows.map (fun r => r ++ [g r])⟩ := by
  have : (colIdx? df.cols c).isSome = false := by simp [hnone]
  simp only [setCol, this, Bool.false_eq_true, if_false]
  congr 1
  exact zip_map_self df.rows g (fun r v => r ++ [v])

/-! ### Lemmas about the date-parsing pass -/

theorem parseColWith_eq_map (p : String → Option Date) (col out : List Value)
    (h : parseColWith p col = some out) : out = col.map (pwDate p) := by
  induction col generalizing out with
  | nil =>
      simp [parseColWith] at h
      simp [h]
  | cons v rest ih =>
      simp only [parseColWith] at h
      cases hc : parseCell p v with
      | none => rw [hc] at h; simp at h
      | some w =>
          rw [hc] at h
          cases hr : parseColWith p rest with
          | none => rw [hr] at h; simp at h
          | some o =>
              rw [hr] at h
              simp at h
              have hw : pwDate p v = w := by
                cases v with
                | str s =>
                    simp only [parseCell] at hc
                    cases hp : p s with
                    | none => rw [hp] at hc; simp at hc
                    | some d =>
                        rw [hp] at hc
                        simp at hc
                        simp [pwDate, hp, hc]
                | date d => simp [parseCell] at hc
                | num q => simp [parseCell] at hc
                | null =>
                    simp [parseCell] at hc
                    simp [pwDate, ← hc]
              subst h
              simp [List.map_cons, hw, ih o hr]

theorem pwDate_null (p : String → Option Date) : pwDate p Value.null = Value.null := rfl

theorem pwDate_shape (p : String → Option Date) (v : Value) :
    dateOrNull (pwDate p v) = true := by
  cases v with
  | str s =>
      simp only [pwDate]
      cases p s <;> simp [dateOrNull]
  | date d => simp [pwDate, dateOrNull]
  | num q => simp [pwDate, dateOrNull]
  | null => simp [pwDate, dateOrNull]

theorem coerceDate_null : coerceDate Value.null = Value.null := rfl

theorem coerceDate_shape (v : Value) : dateOrNull (coerceDate v) = true := by
  cases v with
  | str s =>
      simp only [coerceDate]
      cases parseDMY s <|> parseMDY s <|> parseISO s <;> simp [dateOrNull]
  | date d => simp [coerceDate, dateOrNull]
  | num q => simp [coerceDate, dateOrNull]
  | null => simp [coerceDate, dateOrNull]

/-! ### Step-level lemmas -/

theorem normalizeColumns_cols (csv : RawCSV) :
    (normalizeColumns csv).cols = csv.header.map normalizeHeader := rfl

theorem normalizeColumns_len (csv : RawCSV) :
    (normalizeColumns csv).rows.length = csv.rows.length := by
  simp [normalizeColumns]

theorem normalizeColumns_WF (csv : RawCSV) (h : csv.WF = true) :
    (normalizeColumns csv).WF = true := by
  simp only [RawCSV.WF, List.all_eq_true, beq_iff_eq] at h
  simp only [DataFrame.WF, normalizeColumns, List.all_eq_true, beq_iff_eq, List.mem_map]
  rintro _ ⟨r, hr, rfl⟩
  simp [h r hr]

theorem setCol_cols (df : DataFrame) (c : String) (vs : List Value) :
    (setCol df c vs).cols =
      if (colIdx? df.cols c).isSome then df.cols else df.cols ++ [c] := by
  by_cases h : (colIdx? df.cols c).isSome <;> simp [setCol, h]

theorem WF_map_replaceRow (df : DataFrame) (c : String) (g : List Value → Value)
    (hwf : df.WF = true) :
    DataFrame.WF ⟨df.cols, df.rows.map (fun r => replaceRow df.cols c r (g r))⟩ = true := by
  simp only [DataFrame.WF, List.all_eq_true, beq_iff_eq, List.mem_map] at hwf ⊢
  rintro _ ⟨r, hr, rfl⟩
  rw [replaceRow_length]
  have := hwf r hr
  omega

theorem dateStep_ok_count (df df' : DataFrame) (h : dateStep df = Except.ok df') :
    countCol df.cols "order_date" = 1 := by
  by_contra hc
  simp [dateStep, hc] at h

theorem dateStep_error (df : DataFrame) (h : countCol df.cols "order_date" ≠ 1) :
    dateStep df = Except.error () := by
  simp [dateStep, h]

theorem dateStep_ok_of_count (df : DataFrame) (h : countCol df.cols "order_date" = 1) :
    ∃ df', dateStep df = Except.ok df' := by
  simp only [dateStep, h, ne_eq, not_true_eq_false, if_false]
  cases firstSome (dateFormats.map (fun p => parseColWith p (getCol df "order_date"))) with
  | none => exact ⟨_, rfl⟩
  | some parsed => exact ⟨_, rfl⟩

theorem dateStep_exists_g (df df' : DataFrame) (h : dateStep df = Except.ok df') :
    ∃ g : Value → Value, (∀ v, dateOrNull (g v) = true) ∧
      df' = ⟨df.cols, df.rows.map
        (fun r => replaceRow df.cols "order_date" r (g (valAt df.cols "order_date" r)))⟩ := by
  have hcount := dateStep_ok_count df df' h
  have hmem : (colIdx? df.cols "order_date").isSome = true :=
    (colIdx?_isSome_iff _ _).mpr (by omega)
  obtain ⟨i, hidx⟩ := Option.isSome_iff_exists.mp hmem
  have hget : ∀ g : Value → Value,
      (getCol df "order_date").map g =
        df.rows.map (fun r => g (valAt df.cols "order_date" r)) := by
    intro g
    rw [getCol_eq_map df _ i hidx, List.map_map]
    rfl
  simp only [dateStep, hcount, ne_eq, not_true_eq_false, if_false, dateFormats,
    List.map_cons, List.map_nil, firstSome] at h
  cases h1 : parseColWith parseDMY (getCol df "order_date") with
  | some o1 =>
      rw [h1] at h
      simp only [Except.ok.injEq] at h
      refine ⟨pwDate parseDMY, pwDate_shape parseDMY, ?_⟩
      rw [← h, parseColWith_eq_map _ _ _ h1, hget (pwDate parseDMY)]
      exact setCol_map_present df _ _ hmem
  | none =>
      rw [h1] at h
      cases h2 : parseColWith parseMDY (getCol df "order_date") with
      | some o2 =>
          rw [h2] at h
          simp only [Except.ok.injEq] at h
          refine ⟨pwDate parseMDY, pwDate_shape parseMDY, ?_⟩
          rw [← h, parseColWith_eq_map _ _ _ h2, hget (pwDate parseMDY)]
          exact setCol_map_present df _ _ hmem
      | none =>
          rw [h2] at h
          cases h3 : parseColWith parseISO (getCol df "order_date") with
          | some o3 =>
              rw [h3] at h
              simp only [Except.ok.injEq] at h
              refine ⟨pwDate parseISO, pwDate_shape parseISO, ?_⟩
              rw [← h, parseColWith_eq_map _ _ _ h3, hget (pwDate parseISO)]
              exact setCol_map_present df _ _ hmem
          | none =>
              rw [h3] at h
              simp only [Except.ok.injEq] at h
              refine ⟨coerceDate, coerceDate_shape, ?_⟩
              rw [← h, hget coerceDate]
              exact setCol_map_present df _ _ hmem

theorem monthYearStep_cols (df : DataFrame) :
    (monthYearStep df).cols =
      if (colIdx? df.cols "month_year").isSome then df.cols
      else df.cols ++ ["month_year"] := by
  unfold monthYearStep
  exact setCol_cols df _ _

theorem monthYearStep_my_present (df : DataFrame) :
    (colIdx? (monthYearStep df).cols "month_year").isSome = true := by
  rw [monthYearStep_cols]
  by_cases h : (colIdx? df.cols "month_year").isSome
  · simp [h]
  · have hn : colIdx? df.cols "month_year" = none := by
      cases hx : colIdx? df.cols "month_year" with
      | none => rfl
      | some j => rw [hx] at h; simp at h
    simp [h, colIdx?_append_self df.cols _ hn]

theorem monthYearStep_invariant (df : DataFrame) (hwf : df.WF = true)
    (i : Nat) (hod : colIdx? df.cols "order_date" = some i) :
    (monthYearStep df).WF = true ∧
    (monthYearStep df).rows.length = df.rows.length ∧
    ∀ r2 ∈ (monthYearStep df).rows, ∃ r ∈ df.rows,
      valAt (monthYearStep df).cols "order_date" r2 = valAt df.cols "order_date" r ∧
      valAt (monthYearStep df).cols "month_year" r2 =
        deriveMonthYear (valAt df.cols "order_date" r) := by
  have hget : (getCol df "order_date").map deriveMonthYear =
      df.rows.map (fun r => deriveMonthYear (valAt df.cols "order_date" r)) := by
    rw [getCol_eq_map df _ i hod, List.map_map]
    rfl
  have hlen : ∀ r ∈ df.rows, r.length = df.cols.length := by
    intro r hr
    have := hwf
    simp only [DataFrame.WF, List.all_eq_true, beq_iff_eq] at this
    exact this r hr
  have hodmy : "order_date" ≠ "month_year" := by decide
  by_cases hmy : (colIdx? df.cols "month_year").isSome
  · have hstep : monthYearStep df =
        ⟨df.cols, df.rows.map (fun r =>
          replaceRow df.cols "month_year" r
            (deriveMonthYear (valAt df.cols "order_date" r)))⟩ := by
      unfold monthYearStep
      rw [hget]
      exact setCol_map_present df _ _ hmy
    rw [hstep]
    refine ⟨WF_map_replaceRow df _ _ hwf, by simp, ?_⟩
    simp only [List.mem_map]
    rintro _ ⟨r, hr, rfl⟩
    refine ⟨r, hr, ?_, ?_⟩
    · exact valAt_replaceRow_ne df.cols "month_year" "order_date" r _ hodmy (hlen r hr)
    · exact valAt_replaceRow_eq df.cols "month_year" r _ hmy (hlen r hr)
  · have hn : colIdx? df.cols "month_year" = none := by
      cases hx : colIdx? df.cols "month_year" with
      | none => rfl
      | some j => rw [hx] at hmy; simp at hmy
    have hstep : monthYearStep df =
        ⟨df.cols ++ ["month_year"], df.rows.map (fun r =>
          r ++ [deriveMonthYear (valAt df.cols "order_date" r)])⟩ := by
      unfold monthYearStep
      rw [hget]
      exact setCol_map_absent df _ _ hn
    rw [hstep]
    refine ⟨?_, by simp, ?_⟩
    · simp only [DataFrame.WF, List.all_eq_true, beq_iff_eq, List.mem_map]
      rintro _ ⟨r, hr, rfl⟩
      simp [hlen r hr]
    · simp only [List.mem_map]
      rintro _ ⟨r, hr, rfl⟩
      refine ⟨r, hr, ?_, ?_⟩
      · exact valAt_append_old df.cols "month_year" "order_date" r _ i hod (hlen r hr)
      · exact valAt_append_new df.cols "month_year" r _ hn (hlen r hr)

theorem coerceNumCol_cols (df df' : DataFrame) (c : String)
    (h : coerceNumCol df c = Except.ok df') : df'.cols = df.cols := by
  by_cases h2 : countCol df.cols c ≥ 2
  · simp [coerceNumCol, h2] at h
  · by_cases h1 : countCol df.cols c = 1
    · simp [coerceNumCol, h1] at h
      rw [← h, setCol_cols]
      have : (colIdx? df.cols c).isSome = true :=
        (colIdx?_isSome_iff _ _).mpr (by omega)
      simp [this]
    · simp only [coerceNumCol, h2, if_false, h1, if_false, Except.ok.injEq] at h
      rw [← h]

theorem coerceNumCol_ok_of_count (df : DataFrame) (c : String)
    (h : countCol df.cols c ≤ 1) : ∃ df', coerceNumCol df c = Except.ok df' := by
  have h2 : ¬ countCol df.cols c ≥ 2 := by omega
  by_cases h1 : countCol df.cols c = 1
  · exact ⟨setCol df c ((getCol df c).map coerceNum), by simp [coerceNumCol, h1]⟩
  · exact ⟨df, by simp [coerceNumCol, h2, h1]⟩

theorem coerceNumCol_invariant (df df' : DataFrame) (c : String)
    (h : coerceNumCol df c = Except.ok df') (hwf : df.WF = true) :
    df'.cols = df.cols ∧ df'.WF = true ∧ df'.rows.length = df.rows.length ∧
    ∀ r' ∈ df'.rows, ∃ r ∈ df.rows, ∀ c', c' ≠ c →
      valAt df.cols c' r' = valAt df.cols c' r := by
  have hlen : ∀ r ∈ df.rows, r.length = df.cols.length := by
    intro r hr
    have := hwf
    simp only [DataFrame.WF, List.all_eq_true, beq_iff_eq] at this
    exact this r hr
  by_cases h2 : countCol df.cols c ≥ 2
  · simp [coerceNumCol, h2] at h
  · by_cases h1 : countCol df.cols c = 1
    · have hmem : (colIdx? df.cols c).isSome = true :=
        (colIdx?_isSome_iff _ _).mpr (by omega)
      obtain ⟨i, hidx⟩ := Option.isSome_iff_exists.mp hmem
      have hget : (getCol df c).map coerceNum =
          df.rows.map (fun r => coerceNum (valAt df.cols c r)) := by
        rw [getCol_eq_map df _ i hidx, List.map_map]
        rfl
      simp [coerceNumCol, h1] at h
      rw [← h, hget, setCol_map_present df _ _ hmem]
      refine ⟨rfl, WF_map_replaceRow df _ _ hwf, by simp, ?_⟩
      simp only [List.mem_map]
      rintro _ ⟨r, hr, rfl⟩
      refine ⟨r, hr, fun c' hc' => ?_⟩
      exact valAt_replaceRow_ne df.cols c c' r _ hc' (hlen r hr)
    · simp only [coerceNumCol, h2, if_false, h1, if_false, Except.ok.injEq] at h
      rw [← h]
      exact ⟨rfl, hwf, rfl, fun r' hr' => ⟨r', hr', fun c' _ => rfl⟩⟩

theorem numericStep_invariant (df df' : DataFrame)
    (h : numericStep df = Except.ok df') (hwf : df.WF = true) :
    df'.cols = df.cols ∧ df'.WF = true ∧ df'.rows.length = df.rows.length ∧
    ∀ r' ∈ df'.rows, ∃ r ∈ df.rows,
      ∀ c', c' ≠ "profit" → c' ≠ "discount" → c' ≠ "sales" →
        valAt df.cols c' r' = valAt df.cols c' r := by
  cases e1 : coerceNumCol df "profit" with
  | error u => simp [numericStep, e1, Bind.bind, Except.bind] at h
  | ok d1 =>
      cases e2 : coerceNumCol d1 "discount" with
      | error u => simp [numericStep, e1, e2, Bind.bind, Except.bind] at h
      | ok d2 =>
          have e3 : coerceNumCol d2 "sales" = Except.ok df' := by
            simpa [numericStep, e1, e2, Bind.bind, Except.bind] using h
          obtain ⟨hc1, hw1, hl1, hr1⟩ := coerceNumCol_invariant df d1 "profit" e1 hwf
          obtain ⟨hc2, hw2, hl2, hr2⟩ := coerceNumCol_invariant d1 d2 "discount" e2 hw1
          obtain ⟨hc3, hw3, hl3, hr3⟩ := coerceNumCol_invariant d2 df' "sales" e3 hw2
          refine ⟨by rw [hc3, hc2, hc1], hw3, by rw [hl3, hl2, hl1], ?_⟩
          intro r' hr'
          obtain ⟨r2, hr2mem, hp3⟩ := hr3 r' hr'
          obtain ⟨r1, hr1mem, hp2⟩ := hr2 r2 hr2mem
          obtain ⟨r0, hr0mem, hp1⟩ := hr1 r1 hr1mem
          refine ⟨r0, hr0mem, fun c' hcp hcd hcs => ?_⟩
          have t3 := hp3 c' hcs
          have t2 := hp2 c' hcd
          have t1 := hp1 c' hcp
          rw [hc2, hc1] at t3
          rw [hc1] at t2
          rw [t3, t2, t1]

theorem numericStep_ok_of_counts (df : DataFrame)
    (hp : countCol df.cols "profit" ≤ 1)
    (hd : countCol df.cols "discount" ≤ 1)
    (hs : countCol df.cols "sales" ≤ 1) :
    ∃ df', numericStep df = Except.ok df' := by
  obtain ⟨d1, e1⟩ := coerceNumCol_ok_of_count df "profit" hp
  have hc1 := coerceNumCol_cols df d1 "profit" e1
  obtain ⟨d2, e2⟩ := coerceNumCol_ok_of_count d1 "discount" (by rw [hc1]; exact hd)
  have hc2 := coerceNumCol_cols d1 d2 "discount" e2
  obtain ⟨d3, e3⟩ := coerceNumCol_ok_of_count d2 "sales" (by rw [hc2, hc1]; exact hs)
  exact ⟨d3, by simp [numericStep, e1, e2, e3, Bind.bind, Except.bind]⟩

theorem dateStep_cols (df df' : DataFrame) (h : dateStep df = Except.ok df') :
    df'.cols = df.cols := by
  obtain ⟨g, _, rfl⟩ := dateStep_exists_g df df' h
  rfl

theorem dateStep_len (df df' : DataFrame) (h : dateStep df = Except.ok df') :
    df'.rows.length = df.rows.length := by
  obtain ⟨g, _, rfl⟩ := dateStep_exists_g df df' h
  simp

theorem monthYearStep_len (df : DataFrame) (i : Nat)
    (hod : colIdx? df.cols "order_date" = some i) :
    (monthYearStep df).rows.length = df.rows.length := by
  have hget : (getCol df "order_date").map deriveMonthYear =
      df.rows.map (fun r => deriveMonthYear (valAt df.cols "order_date" r)) := by
    rw [getCol_eq_map df _ i hod, List.map_map]
    rfl
  unfold monthYearStep
  rw [hget]
  by_cases hmy : (colIdx? df.cols "month_year").isSome
  · rw [setCol_map_present df _ _ hmy]
    simp
  · have hn : colIdx? df.cols "month_year" = none := by
      cases hx : colIdx? df.cols "month_year" with
      | none => rfl
      | some j => rw [hx] at hmy; simp at hmy
    rw [setCol_map_absent df _ _ hn]
    simp

theorem coerceNumCol_len (df df' : DataFrame) (c : String)
    (h : coerceNumCol df c = Except.ok df') :
    df'.rows.length = df.rows.length := by
  by_cases h2 : countCol df.cols c ≥ 2
  · simp [coerceNumCol, h2] at h
  · by_cases h1 : countCol df.cols c = 1
    · have hmem : (colIdx? df.cols c).isSome = true :=
        (colIdx?_isSome_iff _ _).mpr (by omega)
      obtain ⟨i, hidx⟩ := Option.isSome_iff_exists.mp hmem
      have hget : (getCol df c).map coerceNum =
          df.rows.map (fun r => coerceNum (valAt df.cols c r)) := by
        rw [getCol_eq_map df _ i hidx, List.map_map]
        rfl
      simp [coerceNumCol, h1] at h
      rw [← h, hget, setCol_map_present df _ _ hmem]
      simp
    · simp only [coerceNumCol, h2, if_false, h1, if_false, Except.ok.injEq] at h
      rw [← h]

theorem numericStep_cols (df df' : DataFrame)
    (h : numericStep df = Except.ok df') : df'.cols = df.cols := by
  cases e1 : coerceNumCol df "profit" with
  | error u => simp [numericStep, e1, Bind.bind, Except.bind] at h
  | ok d1 =>
      cases e2 : coerceNumCol d1 "discount" with
      | error u => simp [numericStep, e1, e2, Bind.bind, Except.bind] at h
      | ok d2 =>
          have e3 : coerceNumCol d2 "sales" = Except.ok df' := by
            simpa [numericStep, e1, e2, Bind.bind, Except.bind] using h
          rw [coerceNumCol_cols d2 df' "sales" e3, coerceNumCol_cols d1 d2 "discount" e2,
            coerceNumCol_cols df d1 "profit" e1]

theorem numericStep_len (df df' : DataFrame)
    (h : numericStep df = Except.ok df') : df'.rows.length = df.rows.length := by
  cases e1 : coerceNumCol df "profit" with
  | error u => simp [numericStep, e1, Bind.bind, Except.bind] at h
  | ok d1 =>
      cases e2 : coerceNumCol d1 "discount" with
      | error u => simp [numericStep, e1, e2, Bind.bind, Except.bind] at h
      | ok d2 =>
          have e3 : coerceNumCol d2 "sales" = Except.ok df' := by
            simpa [numericStep, e1, e2, Bind.bind, Except.bind] using h
          rw [coerceNumCol_len d2 df' "sales" e3, coerceNumCol_len d1 d2 "discount" e2,
            coerceNumCol_len df d1 "profit" e1]

/-! ### Whole-pipeline lemmas -/

theorem processEncoding_steps (csv : RawCSV) (df : DataFrame)
    (h : processEncoding csv = Except.ok df) :
    ∃ d1, dateStep (normalizeColumns csv) = Except.ok d1 ∧
      numericStep (monthYearStep d1) = Except.ok df := by
  cases e1 : dateStep (normalizeColumns csv) with
  | error u => simp [processEncoding, e1, Bind.bind, Except.bind] at h
  | ok d1 =>
      refine ⟨d1, rfl, ?_⟩
      simpa [processEncoding, e1, Bind.bind, Except.bind] using h

theorem processEncoding_len (csv : RawCSV) (df : DataFrame)
    (h : processEncoding csv = Except.ok df) :
    df.rows.length = csv.rows.length := by
  obtain ⟨d1, e1, e3⟩ := processEncoding_steps csv df h
  have hcount := dateStep_ok_count _ _ e1
  have hc1 := dateStep_cols _ _ e1
  have hod1 : (colIdx? d1.cols "order_date").isSome = true := by
    rw [hc1]
    exact (colIdx?_isSome_iff _ _).mpr (by omega)
  obtain ⟨i, hidx⟩ := Option.isSome_iff_exists.mp hod1
  rw [numericStep_len _ _ e3, monthYearStep_len d1 i hidx, dateStep_len _ _ e1,
    normalizeColumns_len]

theorem processEncoding_cols (csv : RawCSV) (df : DataFrame)
    (h : processEncoding csv = Except.ok df) :
    df.cols =
      if (colIdx? (csv.header.map normalizeHeader) "month_year").isSome
      then csv.header.map normalizeHeader
      else csv.header.map normalizeHeader ++ ["month_year"] := by
  obtain ⟨d1, e1, e3⟩ := processEncoding_steps csv df h
  have hc1 := dateStep_cols _ _ e1
  rw [numericStep_cols _ _ e3, monthYearStep_cols, hc1, normalizeColumns_cols]

theorem processEncoding_count (csv : RawCSV) (df : DataFrame)
    (h : processEncoding csv = Except.ok df) (c : String) (hc : c ≠ "month_year") :
    countCol df.cols c = countCol (csv.header.map normalizeHeader) c := by
  rw [processEncoding_cols csv df h]
  by_cases hmy : (colIdx? (csv.header.map normalizeHeader) "month_year").isSome
  · rw [if_pos hmy]
  · rw [if_neg hmy, countCol_append]
    simp [countCol, Ne.symm hc]

theorem processEncoding_ok_of_counts (csv : RawCSV)
    (hod : countCol (csv.header.map normalizeHeader) "order_date" = 1)
    (hp : countCol (csv.header.map normalizeHeader) "profit" ≤ 1)
    (hd : countCol (csv.header.map normalizeHeader) "discount" ≤ 1)
    (hs : countCol (csv.header.map normalizeHeader) "sales" ≤ 1) :
    ∃ df, processEncoding csv = Except.ok df := by
  have h0 : (normalizeColumns csv).cols = csv.header.map normalizeHeader :=
    normalizeColumns_cols csv
  obtain ⟨d1, e1⟩ := dateStep_ok_of_count (normalizeColumns csv) (by rw [h0]; exact hod)
  have hc1 := dateStep_cols _ _ e1
  have hcnt : ∀ c, c ≠ "month_year" →
      countCol (monthYearStep d1).cols c =
        countCol (csv.header.map normalizeHeader) c := by
    intro c hc
    rw [monthYearStep_cols]
    by_cases hmy : (colIdx? d1.cols "month_year").isSome
    · rw [if_pos hmy, hc1, h0]
    · rw [if_neg hmy, countCol_append, hc1, h0]
      simp [countCol, Ne.symm hc]
  obtain ⟨df, e3⟩ := numericStep_ok_of_counts (monthYearStep d1)
    (by rw [hcnt "profit" (by decide)]; exact hp)
    (by rw [hcnt "discount" (by decide)]; exact hd)
    (by rw [hcnt "sales" (by decide)]; exact hs)
  exact ⟨df, by simp [processEncoding, e1, e3, Bind.bind, Except.bind]⟩

theorem processEncoding_error_of_no_od (csv : RawCSV)
    (h : countCol (csv.header.map normalizeHeader) "order_date" = 0) :
    processEncoding csv = Except.error () := by
  have he : dateStep (normalizeColumns csv) = Except.error () := by
    apply dateStep_error
    rw [normalizeColumns_cols]
    omega
  simp [processEncoding, he, Bind.bind, Except.bind]

theorem processEncoding_row_invariant (csv : RawCSV) (df : DataFrame)
    (hwf : csv.WF = true) (h : processEncoding csv = Except.ok df) :
    ∀ r ∈ df.rows,
      dateOrNull (valAt df.cols "order_date" r) = true ∧
      valAt df.cols "month_year" r =
        deriveMonthYear (valAt df.cols "order_date" r) := by
  obtain ⟨d1, e1, e3⟩ := processEncoding_steps csv df h
  have hwf0 := normalizeColumns_WF csv hwf
  have hcount := dateStep_ok_count _ _ e1
  obtain ⟨g, hg, hd1⟩ := dateStep_exists_g _ _ e1
  have hc1 : d1.cols = (normalizeColumns csv).cols := dateStep_cols _ _ e1
  have hwf1 : d1.WF = true := by
    rw [hd1]
    exact WF_map_replaceRow _ _ _ hwf0
  have hmem0 : (colIdx? (normalizeColumns csv).cols "order_date").isSome = true :=
    (colIdx?_isSome_iff _ _).mpr (by omega)
  have hlen0 : ∀ r ∈ (normalizeColumns csv).rows,
      r.length = (normalizeColumns csv).cols.length := by
    intro r hr
    have := hwf0
    simp only [DataFrame.WF, List.all_eq_true, beq_iff_eq] at this
    exact this r hr
  have hshape1 : ∀ r1 ∈ d1.rows,
      dateOrNull (valAt d1.cols "order_date" r1) = true := by
    rw [hd1]
    simp only [List.mem_map]
    rintro _ ⟨r0, hr0, rfl⟩
    show dateOrNull (valAt (normalizeColumns csv).cols "order_date" _) = true
    rw [valAt_replaceRow_eq _ _ _ _ hmem0 (hlen0 r0 hr0)]
    exact hg _
  have hod1 : (colIdx? d1.cols "order_date").isSome = true := by
    rw [hc1]
    exact hmem0
  obtain ⟨i, hidx⟩ := Option.isSome_iff_exists.mp hod1
  obtain ⟨hwf2, _, hrows2⟩ := monthYearStep_invariant d1 hwf1 i hidx
  have hinv2 : ∀ r2 ∈ (monthYearStep d1).rows,
      dateOrNull (valAt (monthYearStep d1).cols "order_date" r2) = true ∧
      valAt (monthYearStep d1).cols "month_year" r2 =
        deriveMonthYear (valAt (monthYearStep d1).cols "order_date" r2) := by
    intro r2 hr2
    obtain ⟨r1, hr1, hodq, hmyq⟩ := hrows2 r2 hr2
    constructor
    · rw [hodq]
      exact hshape1 r1 hr1
    · rw [hmyq, hodq]
  obtain ⟨hc3, _, _, hrows3⟩ := numericStep_invariant _ _ e3 hwf2
  intro r hr
  obtain ⟨r2, hr2, hp⟩ := hrows3 r hr
  have hodv := hp "order_date" (by decide) (by decide) (by decide)
  have hmyv := hp "month_year" (by decide) (by decide) (by decide)
  have hi2 := hinv2 r2 hr2
  rw [hc3]
  constructor
  · rw [hodv]
    exact hi2.1
  · rw [hmyv, hodv]
    exact hi2.2

/-! ### Lemmas about the encoding loop and `load_data` -/

theorem firstOk_some (l : List (Option RawCSV)) (df : DataFrame)
    (h : firstOk l = some df) :
    ∃ csv, (some csv) ∈ l ∧ processEncoding csv = Except.ok df := by
  induction l with
  | nil => simp [firstOk] at h
  | cons o rest ih =>
      cases o with
      | none =>
          simp only [firstOk] at h
          obtain ⟨csv, hm, hp⟩ := ih h
          exact ⟨csv, by simp [hm], hp⟩
      | some csv =>
          cases hp : processEncoding csv with
          | ok d =>
              simp only [firstOk, hp, Option.some_inj] at h
              exact ⟨csv, by simp, by rw [hp, h]⟩
          | error u =>
              simp only [firstOk, hp] at h
              obtain ⟨c2, hm, hp2⟩ := ih h
              exact ⟨c2, by simp [hm], hp2⟩

theorem firstOk_none_of_all_error (l : List (Option RawCSV))
    (h : ∀ csv, some csv ∈ l → processEncoding csv = Except.error ()) :
    firstOk l = none := by
  induction l with
  | nil => rfl
  | cons o rest ih =>
      cases o with
      | none =>
          simp only [firstOk]
          exact ih (fun csv hm => h csv (by simp [hm]))
      | some csv =>
          have hp := h csv (by simp)
          simp only [firstOk, hp]
          exact ih (fun c2 hm => h c2 (by simp [hm]))

theorem firstOk_isSome_of_ok (l : List (Option RawCSV)) (csv : RawCSV) (df : DataFrame)
    (hm : some csv ∈ l) (hp : processEncoding csv = Except.ok df) :
    (firstOk l).isSome = true := by
  induction l with
  | nil => simp at hm
  | cons o rest ih =>
      rcases List.mem_cons.mp hm with he | hrest
      · rw [← he]
        simp [firstOk, hp]
      · cases o with
        | none =>
            simp only [firstOk]
            exact ih hrest
        | some c2 =>
            cases hp2 : processEncoding c2 with
            | ok d => simp [firstOk, hp2]
            | error u =>
                simp only [firstOk, hp2]
                exact ih hrest

theorem load_data_ok_elim (inp : Input) (df : DataFrame)
    (h : load_data inp = LoadResult.ok df) :
    inp.fileExists = true ∧ firstOk (attempts inp) = some df := by
  by_cases hfe : inp.fileExists = false
  · simp [load_data, hfe] at h
  · have hfe' : inp.fileExists = true := by
      cases hx : inp.fileExists
      · exact absurd hx hfe
      · rfl
    refine ⟨hfe', ?_⟩
    cases hfo : firstOk (attempts inp) with
    | none => simp [load_data, hfe', hfo] at h
    | some d =>
        simp only [load_data, hfe', Bool.true_eq_false, if_false, hfo,
          LoadResult.ok.injEq] at h
        rw [h]

theorem countCol_ne_zero_iff_mem (l : List String) (c : String) :
    countCol l c ≠ 0 ↔ c ∈ l := by
  induction l with
  | nil => simp [countCol]
  | cons a t ih =>
      by_cases h : a = c
      · simp [countCol, h]
      · simp [countCol, h, ih]
        exact fun hc => absurd hc.symm h

theorem filtered_df_cols (df : DataFrame) (sel : List String) :
    (filtered_df df sel).cols = df.cols := by
  by_cases h : (colIdx? df.cols "region").isSome <;> simp [filtered_df, h]

theorem processEncoding_my_present (csv : RawCSV) (df : DataFrame)
    (h : processEncoding csv = Except.ok df) :
    (colIdx? df.cols "month_year").isSome = true := by
  obtain ⟨d1, e1, e3⟩ := processEncoding_steps csv df h
  rw [numericStep_cols _ _ e3]
  exact monthYearStep_my_present d1

/-! ### Claims -/

/-- C2: for every input readable under at least one candidate encoding
(i.e. whenever `load_data` returns a dataset), the normalized dataset has
exactly as many rows as the source CSV that produced it: parse failures
null individual fields, they never drop a row. -/
theorem C2_row_count (inp : Input) (df : DataFrame)
    (h : load_data inp = LoadResult.ok df) :
    ∃ csv, some csv ∈ attempts inp ∧ processEncoding csv = Except.ok df ∧
      df.rows.length = csv.rows.length := by
  obtain ⟨_, hfo⟩ := load_data_ok_elim inp df h
  obtain ⟨csv, hm, hp⟩ := firstOk_some _ _ hfo
  exact ⟨csv, hm, hp, processEncoding_len csv df hp⟩

/-- C2 witness: the three-row file `csvGood` (with an unparseable date and
two non-numeric cells) loads into a three-row dataset. -/
theorem C2_witness :
    load_data inpGood = LoadResult.ok dfGood ∧
    ∃ csv, some csv ∈ attempts inpGood ∧ processEncoding csv = Except.ok dfGood ∧
      dfGood.rows.length = csv.rows.length :=
  ⟨rfl, C2_row_count inpGood dfGood rfl⟩

/-- C6: `load_data` is total toward its caller: on every input it returns
a normalized dataset or one of the two descriptive failure values; no
other outcome (in particular no unhandled fault) exists. -/
theorem C6_total (inp : Input) :
    (∃ df, load_data inp = LoadResult.ok df) ∨
    load_data inp = LoadResult.resourceNotFound ∨
    load_data inp = LoadResult.unreadableEncoding := by
  cases h : load_data inp with
  | ok df => exact Or.inl ⟨df, rfl⟩
  | resourceNotFound => exact Or.inr (Or.inl rfl)
  | unreadableEncoding => exact Or.inr (Or.inr rfl)

/-- C8: when the file is absent, `load_data` returns `ResourceNotFound`,
the user sees exactly one error message (whose text names the path), and
the session halts before any chart code runs. -/
theorem C8_missing_file (inp : Input) (h : inp.fileExists = false) :
    load_data inp = LoadResult.resourceNotFound ∧
    errorMessages (load_data inp) = [resourceNotFoundMsg] ∧
    (errorMessages (load_data inp)).length = 1 ∧
    rendersCharts (load_data inp) = false ∧
    ∃ before after, resourceNotFoundMsg = before ++ "data/superstore.csv" ++ after := by
  have hl : load_data inp = LoadResult.resourceNotFound := by simp [load_data, h]
  refine ⟨hl, ?_, ?_, ?_,
    ⟨"Error: File " ++ squote, squote ++ " not found", by rfl⟩⟩ <;>
    simp [hl, errorMessages, rendersCharts]

/-- C8 witness: the absent-file input. -/
theorem C8_witness :
    inpMissing.fileExists = false ∧
    (load_data inpMissing = LoadResult.resourceNotFound ∧
     errorMessages (load_data inpMissing) = [resourceNotFoundMsg] ∧
     (errorMessages (load_data inpMissing)).length = 1 ∧
     rendersCharts (load_data inpMissing) = false ∧
     ∃ before after, resourceNotFoundMsg = before ++ "data/superstore.csv" ++ after) :=
  ⟨rfl, C8_missing_file inpMissing rfl⟩

/-- C10: a file that exists and decodes under some encoding but has no
column normalizing to `order_date` is reported as the terminal
all-encodings-failed error: every per-encoding body raises at the date
column access, the loop consumes each exception, and the caller cannot
distinguish this from total encoding failure. -/
theorem C10_missing_order_date (inp : Input)
    (hfe : inp.fileExists = true)
    (hdec : ∃ csv, some csv ∈ attempts inp)
    (hnod : ∀ csv, some csv ∈ attempts inp →
      countCol (csv.header.map normalizeHeader) "order_date" = 0) :
    load_data inp = LoadResult.unreadableEncoding ∧
    errorMessages (load_data inp) = [unreadableEncodingMsg] := by
  have hnone : firstOk (attempts inp) = none :=
    firstOk_none_of_all_error _
      (fun csv hm => processEncoding_error_of_no_od csv (hnod csv hm))
  have hl : load_data inp = LoadResult.unreadableEncoding := by
    simp [load_data, hfe, hnone]
  refine ⟨hl, ?_⟩
  simp [hl, errorMessages]

/-- C10 witness: `csvNoDate` decodes under every encoding yet `load_data`
reports the all-encodings-failed error. -/
theorem C10_witness :
    inpNoDate.fileExists = true ∧
    (∃ csv, some csv ∈ attempts inpNoDate) ∧
    (∀ csv, some csv ∈ attempts inpNoDate →
      countCol (csv.header.map normalizeHeader) "order_date" = 0) ∧
    (load_data inpNoDate = LoadResult.unreadableEncoding ∧
     errorMessages (load_data inpNoDate) = [unreadableEncodingMsg]) := by
  have hnod : ∀ csv, some csv ∈ attempts inpNoDate →
      countCol (csv.header.map normalizeHeader) "order_date" = 0 := by
    intro csv hm
    simp [attempts, inpNoDate] at hm
    rw [hm]
    decide
  exact ⟨rfl, ⟨csvNoDate, by decide⟩, hnod,
    C10_missing_order_date inpNoDate rfl ⟨csvNoDate, by decide⟩ hnod⟩

/-- C1 counterexample: `csvNoDate` exists and decodes under every
candidate encoding, yet `load_data` returns the terminal
all-encodings-failed error instead of a normalized dataset, because the
file has no column normalizing to `order_date`. -/
theorem C1_counterexample :
    inpNoDate.fileExists = true ∧
    inpNoDate.parse_utf8 = some csvNoDate ∧
    load_data inpNoDate = LoadResult.unreadableEncoding := by
  refine ⟨rfl, rfl, ?_⟩
  decide

/-- C1 (amended): ingestion of an existing, decodable resource is
terminal-error-free provided the decoded CSV has exactly one column
normalizing to `order_date` and no duplicated numeric column; under those
conditions malformed dates and non-numeric values only null fields and a
dataset is returned. -/
theorem C1_no_terminal_error (inp : Input) (csv : RawCSV)
    (hfe : inp.fileExists = true)
    (hmem : some csv ∈ attempts inp)
    (hod : countCol (csv.header.map normalizeHeader) "order_date" = 1)
    (hp : countCol (csv.header.map normalizeHeader) "profit" ≤ 1)
    (hd : countCol (csv.header.map normalizeHeader) "discount" ≤ 1)
    (hs : countCol (csv.header.map normalizeHeader) "sales" ≤ 1) :
    ∃ df, load_data inp = LoadResult.ok df := by
  obtain ⟨d, hpe⟩ := processEncoding_ok_of_counts csv hod hp hd hs
  have hsome := firstOk_isSome_of_ok (attempts inp) csv d hmem hpe
  obtain ⟨df, hdf⟩ := Option.isSome_iff_exists.mp hsome
  exact ⟨df, by simp [load_data, hfe, hdf]⟩

/-- C1 witness: `csvGood` (with unparseable dates and non-numeric cells)
satisfies the column conditions and loads into a dataset. -/
theorem C1_witness :
    (inpGood.fileExists = true ∧ some csvGood ∈ attempts inpGood ∧
     countCol (csvGood.header.map normalizeHeader) "order_date" = 1 ∧
     countCol (csvGood.header.map normalizeHeader) "profit" ≤ 1 ∧
     countCol (csvGood.header.map normalizeHeader) "discount" ≤ 1 ∧
     countCol (csvGood.header.map normalizeHeader) "sales" ≤ 1) ∧
    ∃ df, load_data inpGood = LoadResult.ok df :=
  ⟨⟨rfl, by decide, by decide, by decide, by decide, by decide⟩,
   C1_no_terminal_error inpGood csvGood rfl (by decide) (by decide) (by decide)
     (by decide) (by decide)⟩

/-- C3: in every dataset `load_data` returns (from rectangular decoded
CSVs), each row has `month_year` null exactly when `order_date` is null,
and for a date `d` the label is the abbreviated month, a hyphen and the
4-digit year of `d`. -/
theorem C3_month_year (inp : Input) (df : DataFrame)
    (hwf : ∀ csv, some csv ∈ attempts inp → csv.WF = true)
    (h : load_data inp = LoadResult.ok df) :
    ∀ r ∈ df.rows,
      (valAt df.cols "order_date" r = Value.null ∧
       valAt df.cols "month_year" r = Value.null) ∨
      ∃ d, valAt df.cols "order_date" r = Value.date d ∧
        valAt df.cols "month_year" r = Value.str (monthYearLabel d) := by
  obtain ⟨_, hfo⟩ := load_data_ok_elim inp df h
  obtain ⟨csv, hm, hp⟩ := firstOk_some _ _ hfo
  have hinv := processEncoding_row_invariant csv df (hwf csv hm) hp
  intro r hr
  obtain ⟨hshape, hmy⟩ := hinv r hr
  cases hv : valAt df.cols "order_date" r with
  | null =>
      left
      refine ⟨rfl, ?_⟩
      rw [hmy, hv]
      rfl
  | date d =>
      right
      refine ⟨d, rfl, ?_⟩
      rw [hmy, hv]
      rfl
  | str s => rw [hv] at hshape; simp [dateOrNull] at hshape
  | num q => rw [hv] at hshape; simp [dateOrNull] at hshape

/-- C3 witness: the dataset loaded from `csvGood`, whose third row has an
unparseable date. -/
theorem C3_witness :
    (∀ csv, some csv ∈ attempts inpGood → csv.WF = true) ∧
    load_data inpGood = LoadResult.ok dfGood ∧
    ∀ r ∈ dfGood.rows,
      (valAt dfGood.cols "order_date" r = Value.null ∧
       valAt dfGood.cols "month_year" r = Value.null) ∨
      ∃ d, valAt dfGood.cols "order_date" r = Value.date d ∧
        valAt dfGood.cols "month_year" r = Value.str (monthYearLabel d) :=
  have hwf : ∀ csv, some csv ∈ attempts inpGood → csv.WF = true := by
    intro csv hm
    simp [attempts, inpGood] at hm
    rw [hm]
    decide
  ⟨hwf, rfl, C3_month_year inpGood dfGood hwf rfl⟩

/-- C4: date parsing tries the explicit patterns in the fixed order
day/month/year, month/day/year, ISO, committing to the first one that
parses the whole `order_date` column; and the concrete scenario: a file
with header `Order Date` and date `31/12/2023` yields a canonical
`order_date` holding that date and `month_year` = `Dec-2023`. -/
theorem C4_date_format_order (df : DataFrame)
    (hcount : countCol df.cols "order_date" = 1) :
    ((∀ o, parseColWith parseDMY (getCol df "order_date") = some o →
        dateStep df = Except.ok (setCol df "order_date" o)) ∧
     (parseColWith parseDMY (getCol df "order_date") = none →
      ∀ o, parseColWith parseMDY (getCol df "order_date") = some o →
        dateStep df = Except.ok (setCol df "order_date" o)) ∧
     (parseColWith parseDMY (getCol df "order_date") = none →
      parseColWith parseMDY (getCol df "order_date") = none →
      ∀ o, parseColWith parseISO (getCol df "order_date") = some o →
        dateStep df = Except.ok (setCol df "order_date" o))) ∧
    processEncoding csvScenario = Except.ok
      ⟨["order_date", "month_year"],
       [[Value.date ⟨2023, 12, 31⟩, Value.str "Dec-2023"]]⟩ := by
  refine ⟨⟨?_, ?_, ?_⟩, rfl⟩
  · intro o h1
    simp [dateStep, hcount, dateFormats, firstSome, h1]
  · intro h1 o h2
    simp [dateStep, hcount, dateFormats, firstSome, h1, h2]
  · intro h1 h2 o h3
    simp [dateStep, hcount, dateFormats, firstSome, h1, h2, h3]

/-- C4 witness: the scenario frame itself has exactly one `order_date`
column. -/
theorem C4_witness :
    countCol (normalizeColumns csvScenario).cols "order_date" = 1 ∧
    (((∀ o, parseColWith parseDMY (getCol (normalizeColumns csvScenario) "order_date") = some o →
        dateStep (normalizeColumns csvScenario) =
          Except.ok (setCol (normalizeColumns csvScenario) "order_date" o)) ∧
     (parseColWith parseDMY (getCol (normalizeColumns csvScenario) "order_date") = none →
      ∀ o, parseColWith parseMDY (getCol (normalizeColumns csvScenario) "order_date") = some o →
        dateStep (normalizeColumns csvScenario) =
          Except.ok (setCol (normalizeColumns csvScenario) "order_date" o)) ∧
     (parseColWith parseDMY (getCol (normalizeColumns csvScenario) "order_date") = none →
      parseColWith parseMDY (getCol (normalizeColumns csvScenario) "order_date") = none →
      ∀ o, parseColWith parseISO (getCol (normalizeColumns csvScenario) "order_date") = some o →
        dateStep (normalizeColumns csvScenario) =
          Except.ok (setCol (normalizeColumns csvScenario) "order_date" o))) ∧
    processEncoding csvScenario = Except.ok
      ⟨["order_date", "month_year"],
       [[Value.date ⟨2023, 12, 31⟩, Value.str "Dec-2023"]]⟩) :=
  ⟨by decide, C4_date_format_order (normalizeColumns csvScenario) (by decide)⟩

/-- C5: with a unique `region` column, the filter keeps exactly the rows
whose region value is a member of the selected set, and the empty
selection keeps no row; concretely, selecting East and West from the
East/West/Central frame keeps exactly the East and West rows. -/
theorem C5_region_filter (df : DataFrame) (sel : List String)
    (hreg : countCol df.cols "region" = 1) :
    ((filtered_df df sel).cols = df.cols) ∧
    (∀ r, r ∈ (filtered_df df sel).rows ↔
      (r ∈ df.rows ∧ ∃ s, valAt df.cols "region" r = Value.str s ∧ s ∈ sel)) ∧
    ((filtered_df df []).rows = []) ∧
    (filtered_df dfRegions ["East", "West"]).rows =
      [[Value.str "East", Value.num 1], [Value.str "West", Value.num 2]] := by
  have hmem : (colIdx? df.cols "region").isSome = true :=
    (colIdx?_isSome_iff _ _).mpr (by omega)
  refine ⟨filtered_df_cols df sel, ?_, ?_, rfl⟩
  · intro r
    simp only [filtered_df, hmem, if_true, List.mem_filter]
    constructor
    · rintro ⟨hr, hp⟩
      refine ⟨hr, ?_⟩
      cases hv : valAt df.cols "region" r with
      | str s =>
          rw [hv] at hp
          exact ⟨s, rfl, by simpa using hp⟩
      | null => rw [hv] at hp; simp at hp
      | date d => rw [hv] at hp; simp at hp
      | num q => rw [hv] at hp; simp at hp
    · rintro ⟨hr, s, hv, hs⟩
      refine ⟨hr, ?_⟩
      rw [hv]
      simpa using hs
  · simp only [filtered_df, hmem, if_true]
    apply List.filter_eq_nil_iff.mpr
    intro r hr
    cases hv : valAt df.cols "region" r <;> simp [hv]

/-- C5 witness: the East/West/Central frame. -/
theorem C5_witness :
    countCol dfRegions.cols "region" = 1 ∧
    (((filtered_df dfRegions ["East", "West"]).cols = dfRegions.cols) ∧
     (∀ r, r ∈ (filtered_df dfRegions ["East", "West"]).rows ↔
       (r ∈ dfRegions.rows ∧
        ∃ s, valAt dfRegions.cols "region" r = Value.str s ∧ s ∈ ["East", "West"])) ∧
     ((filtered_df dfRegions []).rows = []) ∧
     (filtered_df dfRegions ["East", "West"]).rows =
       [[Value.str "East", Value.num 1], [Value.str "West", Value.num 2]]) :=
  ⟨by decide, C5_region_filter dfRegions ["East", "West"] (by decide)⟩

/-- C7 counterexample: the two distinct source headers `Region` and
`region ` normalize to the same canonical name, yet ingestion succeeds
and silently returns a dataset whose column names are not unique — no
collision is flagged. -/
theorem C7_counterexample :
    "Region" ≠ "region " ∧
    normalizeHeader "Region" = normalizeHeader "region " ∧
    processEncoding csvDupRegion = Except.ok
      ⟨["order_date", "region", "region", "sales", "month_year"],
       [[Value.date ⟨2023, 12, 31⟩, Value.str "East", Value.str "E2",
         Value.num (mkRat 10 1), Value.str "Dec-2023"]]⟩ ∧
    ¬ (["order_date", "region", "region", "sales", "month_year"] : List String).Nodup :=
  ⟨by decide, by decide, rfl, by decide⟩

/-- C7 (amended): the output column names are the normalized source
headers (with `month_year` appended when absent); they are unique
whenever no two distinct source headers normalize to the same canonical
name, but on a collision ingestion silently keeps duplicate columns
rather than flagging. -/
theorem C7_columns (csv : RawCSV) (df : DataFrame)
    (h : processEncoding csv = Except.ok df) :
    df.cols = (if (colIdx? (csv.header.map normalizeHeader) "month_year").isSome
      then csv.header.map normalizeHeader
      else csv.header.map normalizeHeader ++ ["month_year"]) ∧
    ((csv.header.map normalizeHeader).Nodup → df.cols.Nodup) := by
  have hc := processEncoding_cols csv df h
  refine ⟨hc, ?_⟩
  intro hnd
  rw [hc]
  by_cases hmy : (colIdx? (csv.header.map normalizeHeader) "month_year").isSome
  · rw [if_pos hmy]
    exact hnd
  · rw [if_neg hmy]
    have hn : "month_year" ∉ csv.header.map normalizeHeader := by
      intro hm
      exact hmy ((colIdx?_isSome_iff _ _).mpr
        ((countCol_ne_zero_iff_mem _ _).mpr hm))
    refine List.Nodup.append hnd (List.nodup_singleton _) ?_
    intro a ha hb
    simp only [List.mem_singleton] at hb
    rw [hb] at ha
    exact hn ha

/-- C7 witness: a collision-free file. -/
theorem C7_witness :
    processEncoding csvNoDiscount = Except.ok dfNoDiscount ∧
    (dfNoDiscount.cols =
      (if (colIdx? (csvNoDiscount.header.map normalizeHeader) "month_year").isSome
       then csvNoDiscount.header.map normalizeHeader
       else csvNoDiscount.header.map normalizeHeader ++ ["month_year"]) ∧
     ((csvNoDiscount.header.map normalizeHeader).Nodup → dfNoDiscount.cols.Nodup)) :=
  ⟨rfl, C7_columns csvNoDiscount dfNoDiscount rfl⟩

/-- C9: a source file without a `discount` column still ingests; on the
resulting (filtered) frame the correlation tab degrades to a warning
naming exactly `discount`, while the sales-trend and regional-analysis
tabs still render their charts. -/
theorem C9_missing_discount (csv : RawCSV) (sel : List String)
    (hod : countCol (csv.header.map normalizeHeader) "order_date" = 1)
    (hp : countCol (csv.header.map normalizeHeader) "profit" = 1)
    (hs : countCol (csv.header.map normalizeHeader) "sales" = 1)
    (hr : countCol (csv.header.map normalizeHeader) "region" ≠ 0)
    (hd : countCol (csv.header.map normalizeHeader) "discount" = 0) :
    ∃ df, processEncoding csv = Except.ok df ∧
      tab3 (filtered_df df sel) =
        TabOutput.warning "Missing columns for correlation analysis: discount" ∧
      tab1 (filtered_df df sel) = TabOutput.chart ∧
      tab2 (filtered_df df sel) = TabOutput.chart := by
  obtain ⟨df, hpe⟩ := processEncoding_ok_of_counts csv hod (by omega) (by omega)
    (by omega)
  have hcols := filtered_df_cols df sel
  have hcnt : ∀ c, c ≠ "month_year" →
      countCol df.cols c = countCol (csv.header.map normalizeHeader) c :=
    fun c hc => processEncoding_count csv df hpe c hc
  have hprofit : (colIdx? df.cols "profit").isSome = true := by
    refine (colIdx?_isSome_iff _ _).mpr ?_
    rw [hcnt "profit" (by decide)]
    omega
  have hdisc : ¬ (colIdx? df.cols "discount").isSome = true := by
    rw [colIdx?_isSome_iff]
    rw [hcnt "discount" (by decide)]
    omega
  have hsales : (colIdx? df.cols "sales").isSome = true := by
    refine (colIdx?_isSome_iff _ _).mpr ?_
    rw [hcnt "sales" (by decide)]
    omega
  have hregion : (colIdx? df.cols "region").isSome = true := by
    refine (colIdx?_isSome_iff _ _).mpr ?_
    rw [hcnt "region" (by decide)]
    omega
  have hmy : (colIdx? df.cols "month_year").isSome = true :=
    processEncoding_my_present csv df hpe
  refine ⟨df, hpe, ?_, ?_, ?_⟩
  · simp only [tab3, hcols, hprofit, hdisc]
    norm_num
    decide
  · simp only [tab1, hcols, hmy, hsales]
    simp
  · simp only [tab2, hcols, hregion, hsales]
    simp

/-- C9 witness: `csvNoDiscount` with an empty region selection. -/
theorem C9_witness :
    (countCol (csvNoDiscount.header.map normalizeHeader) "order_date" = 1 ∧
     countCol (csvNoDiscount.header.map normalizeHeader) "profit" = 1 ∧
     countCol (csvNoDiscount.header.map normalizeHeader) "sales" = 1 ∧
     countCol (csvNoDiscount.header.map normalizeHeader) "region" ≠ 0 ∧
     countCol (csvNoDiscount.header.map normalizeHeader) "discount" = 0) ∧
    ∃ df, processEncoding csvNoDiscount = Except.ok df ∧
      tab3 (filtered_df df []) =
        TabOutput.warning "Missing columns for correlation analysis: discount" ∧
      tab1 (filtered_df df []) = TabOutput.chart ∧
      tab2 (filtered_df df []) = TabOutput.chart :=
  ⟨⟨by decide, by decide, by decide, by decide, by decide⟩,
   C9_missing_discount csvNoDiscount [] (by decide) (by decide) (by decide)
     (by decide) (by decide)⟩
